import Mathlib

/-!
Verification development for the calendar-summary script family
(validated_weekly_report.py / weekly_report.py): sanitizer, event
extractor, pass summarizer, consolidator, and the main pipeline.

The Python `re` layer is embedded as a small backtracking regex engine
over `List Char` (leftmost scan, greedy quantifiers with backtracking,
word boundaries checked against the original text, ASCII case folding
for the IGNORECASE flag).  Repetition operators in the eight sanitizer
patterns only ever apply to single-character classes, so the engine
supports exactly that shape.
-/

/-- Python ASCII whitespace, the characters matched by a plain `\s`. -/
def pySpace (c : Char) : Bool :=
  c = ' ' || c = '\t' || c = '\n' || c = '\r' || c = '\x0b' || c = '\x0c'

/-- Python word character for `\b` (ASCII fragment of `\w`). -/
def isWordChar (c : Char) : Bool :=
  c.isAlpha || c.isDigit || c = '_'

/-- Word boundary between a previous and a next character (absent = non-word). -/
def boundaryAt (prev next : Option Char) : Bool :=
  (match prev with | none => false | some c => isWordChar c)
    != (match next with | none => false | some c => isWordChar c)

/-- Regex abstract syntax: character class, bounded/unbounded greedy
repetition of a class, sequencing, greedy option, word boundary, empty. -/
inductive RE where
  | cls (p : Char → Bool)
  | rep (p : Char → Bool) (lo : Nat) (hi : Option Nat)
  | seq (a b : RE)
  | opt (a : RE)
  | wb
  | eps

/-- Consume `n` characters, tracking the last consumed character. -/
def consumeN : Nat → Option Char → List Char → Option Char × List Char
  | 0, prev, s => (prev, s)
  | _ + 1, prev, [] => (prev, [])
  | n + 1, _, c :: rest => consumeN n (some c) rest

/-- Length of the longest prefix whose characters satisfy `p`. -/
def countWhile (p : Char → Bool) : List Char → Nat
  | [] => 0
  | c :: rest => if p c then countWhile p rest + 1 else 0

/-- Greedy repetition backtracking: try consuming `i` characters, then
`i - 1`, ..., down to `lo`, handing the remainder to continuation `k`. -/
def repTry (lo : Nat) (k : Option Char → List Char → Option Nat)
    (prev : Option Char) (s : List Char) : Nat → Option Nat
  | 0 => k (consumeN 0 prev s).1 (consumeN 0 prev s).2
  | j + 1 =>
    match k (consumeN (j + 1) prev s).1 (consumeN (j + 1) prev s).2 with
    | some n => some n
    | none => if lo ≤ j then repTry lo k prev s j else none

/-- Backtracking matcher in continuation-passing style.  The first
success in backtracking priority order is returned, which reproduces
the Python `re` choice of match at a given start position. -/
def mrun : RE → Option Char → List Char → (Option Char → List Char → Option Nat) → Option Nat
  | .cls _, _, [], _ => none
  | .cls p, _, c :: rest, k => if p c then k (some c) rest else none
  | .rep p lo hi, prev, s, k =>
    let avail := countWhile p s
    let top := match hi with | none => avail | some h => min avail h
    if lo ≤ top then repTry lo k prev s top else none
  | .seq a b, prev, s, k => mrun a prev s (fun pr s2 => mrun b pr s2 k)
  | .opt a, prev, s, k =>
    match mrun a prev s k with
    | some n => some n
    | none => k prev s
  | .wb, prev, s, k => if boundaryAt prev s.head? then k prev s else none
  | .eps, prev, s, k => k prev s

/-- Number of characters of `s` consumed by the match of `re` starting
at the head of `s` (`prev` is the character just before `s`), if any. -/
def matchEnd (re : RE) (prev : Option Char) (s : List Char) : Option Nat :=
  mrun re prev s (fun _ rem => some (s.length - rem.length))

/-- One `re.sub` scan: at each position try a match; on success emit the
replacement and resume after the match (Python does not rescan the
replacement), otherwise emit the character and advance.  `fuel` only
bounds the recursion; `s.length` is always enough since every step
consumes at least one character. -/
def subAux (re : RE) (repl : List Char) : Nat → Option Char → List Char → List Char
  | 0, _, s => s
  | _ + 1, _, [] => []
  | fuel + 1, prev, c :: rest =>
    match matchEnd re prev (c :: rest) with
    | some (n + 1) =>
      repl ++ subAux re repl fuel (consumeN (n + 1) prev (c :: rest)).1
        (consumeN (n + 1) prev (c :: rest)).2
    | _ => c :: subAux re repl fuel (some c) rest

/-- `re.sub(re, repl, s)` on character lists (our patterns never match
the empty string, and a zero-width match is treated as no match). -/
def reSub (re : RE) (repl : List Char) (s : List Char) : List Char :=
  subAux re repl s.length none s

/-- Whether `re` matches (consuming at least one character) anywhere in `s`. -/
def hasM (re : RE) : Option Char → List Char → Bool
  | _, [] => false
  | prev, c :: rest =>
    match matchEnd re prev (c :: rest) with
    | some (_ + 1) => true
    | _ => hasM re (some c) rest

/-- Case-insensitive single character (ASCII folding, as IGNORECASE). -/
def charCI (a : Char) : RE := .cls (fun c => c.toLower = a.toLower)

/-- Case-insensitive literal word. -/
def litCI : List Char → RE
  | [] => .eps
  | a :: rest => .seq (charCI a) (litCI rest)

/-- Exact single character. -/
def chr (a : Char) : RE := .cls (fun c => c = a)

/-- Sequence a list of regexes. -/
def cat : List RE → RE
  | [] => .eps
  | r :: rest => .seq r (cat rest)

/-- One-or-more greedy repetition of a class. -/
def plusC (p : Char → Bool) : RE := .rep p 1 none

/-- Bounded greedy repetition of a class. -/
def repC (p : Char → Bool) (m n : Nat) : RE := .rep p m (some n)

def digitC (c : Char) : Bool := c.isDigit

def emailLocalC (c : Char) : Bool :=
  c.isAlpha || c.isDigit || c = '_' || c = '.' || c = '+' || c = '-'

def emailHostC (c : Char) : Bool := c.isAlpha || c.isDigit || c = '-'

def emailDomC (c : Char) : Bool := c.isAlpha || c.isDigit || c = '-' || c = '.'

def nonSpaceC (c : Char) : Bool := !(pySpace c)

def spaceDashC (c : Char) : Bool := pySpace c || c = '-'

/-- Pattern 1, emails. -/
def patEmail : RE :=
  cat [plusC emailLocalC, chr '@', plusC emailHostC, chr '.', plusC emailDomC]

/-- Pattern 2, US phone numbers. -/
def patUsPhone : RE :=
  cat [chr '(', repC digitC 3 3, chr ')', .cls pySpace,
       repC digitC 3 3, chr '-', repC digitC 4 4]

/-- Pattern 3, international and NA phone formats. -/
def patIntlPhone : RE :=
  cat [chr '+', repC digitC 1 3, .opt (.cls pySpace),
       .opt (cat [chr '(', repC digitC 1 3, chr ')']), .opt (.cls pySpace),
       repC digitC 1 4, .opt (.cls spaceDashC),
       repC digitC 1 4, .opt (.cls spaceDashC),
       repC digitC 1 4, .opt (.seq (.opt (.cls spaceDashC)) (repC digitC 1 4))]

/-- Pattern 4, generic URLs. -/
def patUrl : RE :=
  cat [.wb, litCI ("http").data, .opt (charCI 's'), litCI ("://").data,
       plusC nonSpaceC]

/-- Pattern 5, Meeting IDs. -/
def patMeetingId : RE :=
  cat [.wb, litCI ("Meeting ID: ").data, plusC nonSpaceC]

/-- Pattern 6, Passcodes. -/
def patPasscode : RE :=
  cat [.wb, litCI ("Passcode: ").data, plusC nonSpaceC]

/-- Pattern 7, PINs. -/
def patPin : RE :=
  cat [.wb, litCI ("PIN: ").data, plusC digitC]

/-- Pattern 8, numeric meeting IDs. -/
def patNumericId : RE :=
  cat [.wb, litCI ("ID: ").data, repC digitC 9 11]

/-- The ordered pattern list of `sanitize_information`. -/
def sanPatterns : List RE :=
  [patEmail, patUsPhone, patIntlPhone, patUrl,
   patMeetingId, patPasscode, patPin, patNumericId]

/-- The fixed redaction token. -/
def redactedTok : String := ("[redacted]")

/-- `sanitize_information` from both script variants: each pattern is
substituted in order, each against the output of the previous one. -/
def sanitize_information (s : String) : String :=
  String.mk (sanPatterns.foldl (fun t re => reSub re redactedTok.data t) s.data)

/-- Whether any configured pattern matches somewhere in `s`. -/
def sanHasMatch (s : String) : Bool :=
  sanPatterns.any (fun re => hasM re none s.data)

/-- Prefix test on character lists (`needle` a prefix of `hay`). -/
def startsWithL : List Char → List Char → Bool
  | [], _ => true
  | _ :: _, [] => false
  | a :: as, b :: bs => a = b && startsWithL as bs

/-- Substring occurrence on character lists. -/
def containsL (needle : List Char) : List Char → Bool
  | [] => needle.isEmpty
  | c :: rest => startsWithL needle (c :: rest) || containsL needle rest

/-- The Python `in` operator on strings. -/
def containsSub (hay needle : String) : Bool :=
  containsL needle.data hay.data

/-- Python `str.strip()`: drop ASCII whitespace at both ends. -/
def pyStrip (s : String) : String :=
  String.mk (((s.data.dropWhile pySpace).reverse.dropWhile pySpace).reverse)

/-- Python `"\n".join(l)`. -/
def joinNL : List String → String
  | [] => ("")
  | [s] => s
  | s :: rest => s ++ ("\n") ++ joinNL rest

/-- One choice of a generation-service response. -/
structure LlmChoice where
  text : String

/-- A generation-service response: a possibly empty list of choices.
An empty list models both a missing and an empty `choices` entry, the
falsy cases of `output.get` in the scripts. -/
structure LlmOutput where
  choices : List LlmChoice

/-- Response extraction in `analyze_and_summarize`:
`output['choices'][0]['text'] if output.get('choices') else "No response generated."`. -/
def llmResponse (o : LlmOutput) : String :=
  match o.choices with
  | [] => ("No response generated.")
  | c :: _ => c.text

/-- The fixed outline example embedded in the pass prompt. -/
def analyzeExample : String :=
  ("\nI. [Date]\n    A. [Time]: [Event title]\n        * [Event detail]\n    B. [Time]: [Event title]\n        * [Event detail]\n    and so on...\n    ")

/-- The pass prompt of `analyze_and_summarize` (validated variant), with
the event date and the day text interpolated. -/
def analyzePrompt (dateStr : String) (text : String) : String :=
  ("\n<s>[INST] This is my calendar entry for \n") ++ dateStr ++
  (" (mm-dd-yyyy) Report what I did during \nthe day. Keep it short and concise.  \n\nEnsure that:\n- Duplicate info is combined\n- Output is sorted from early to late.\n- If you are uncertain indicate that something is unknown rather than making it up\n- Ignore the actual formatting and structure and follow the styling from the example:\n") ++
  analyzeExample ++ ("\n\nActual day: ") ++ text ++ (" [/INST]</s>\n")

/-- Result of one pass: the model response and the pass-log content
after the append-mode write of `response + "\n\n"`. -/
structure PassWrite where
  response : String
  fileAfter : String

/-- `analyze_and_summarize(text, llm, user, date, file)`: build the pass
prompt, call the generation service once, substitute the sentinel when
no choice is present, and append one blank-line-terminated block to the
pass log whose prior content is `fileBefore`. -/
def analyze_and_summarize (llm : String → LlmOutput) (text : String)
    (dateStr : String) (fileBefore : String) : PassWrite :=
  let response := llmResponse (llm (analyzePrompt dateStr text))
  { response := response, fileAfter := fileBefore ++ response ++ ("\n\n") }

/-- Contents of the files the Consolidator reads and writes.
`finalReport` is the current content of `final_summary.txt`, `none` if
it was never written. -/
structure ConsolidatorFiles where
  summary1 : String
  summary2 : String
  summary3 : String
  finalReport : Option String
  deriving DecidableEq

/-- The two-way comparison prompt of `finalize_summary`. -/
def twoWayPrompt (t1 t2 : String) : String :=
  ("<s>[INST] Evaluate two summaries for discrepancies. Return \x27MISMATCH\x27 and STOP if any discrepancies exist. Otherwise, consolidate into a final report.\nFirst summary:\n") ++
  t1 ++ ("\n\nSecond summary:\n") ++ t2 ++ ("[/INST]</s>")

/-- The three-way comparison prompt of `finalize_summary`. -/
def threeWayPrompt (t1 t2 t3 : String) : String :=
  ("<s>[INST] Compare three summaries and identify the most accurate consolidation. \nFirst summary:\n") ++
  t1 ++ ("\n\nSecond summary:\n") ++ t2 ++ ("\n\nThird summary:\n") ++ t3 ++
  ("[/INST]</s>")

/-- Response extraction in `finalize_summary`:
`output['choices'][0]['text'].strip() if output.get('choices') else "No response generated."`. -/
def finalizeResponse (o : LlmOutput) : String :=
  match o.choices with
  | [] => ("No response generated.")
  | c :: _ => pyStrip c.text

/-- Observable outcome of one `finalize_summary` invocation. -/
structure FinalizeResult where
  usedThreeWay : Bool
  response : String
  comparisonCalls : Nat
  escalationCalls : Nat
  files : ConsolidatorFiles
  deriving DecidableEq

/-- `finalize_summary(llm)` of the validated variant.  Reads the three
pass logs (stripped), decides between the two-way and three-way
comparison prompt, performs exactly one comparison call, and then
either escalates once into `summary3.txt` (via `analyze_and_summarize`
on the concatenation of the first two summaries, dated `nowStr`),
stops on a terminal mismatch, or overwrites `final_summary.txt` with
the response.  The branch structure mirrors the source line by line. -/
def finalize_summary (llm : String → LlmOutput) (nowStr : String)
    (fs : ConsolidatorFiles) : FinalizeResult :=
  let text1 := pyStrip fs.summary1
  let text2 := pyStrip fs.summary2
  let text3 := pyStrip fs.summary3
  let summariesExist : Bool := !(text3 == (""))
  let prompt :=
    if summariesExist then threeWayPrompt text1 text2 text3
    else twoWayPrompt text1 text2
  let finalResponse := finalizeResponse (llm prompt)
  if containsSub finalResponse ("MISMATCH") && !summariesExist then
    let pw := analyze_and_summarize llm (text1 ++ ("\n") ++ text2) nowStr fs.summary3
    { usedThreeWay := summariesExist, response := finalResponse,
      comparisonCalls := 1, escalationCalls := 1,
      files := { fs with summary3 := pw.fileAfter } }
  else if containsSub finalResponse ("MISMATCH") && summariesExist then
    { usedThreeWay := summariesExist, response := finalResponse,
      comparisonCalls := 1, escalationCalls := 0, files := fs }
  else
    if summariesExist || (!summariesExist && !(containsSub finalResponse ("MISMATCH"))) then
      { usedThreeWay := summariesExist, response := finalResponse,
        comparisonCalls := 1, escalationCalls := 0,
        files := { fs with finalReport := some finalResponse } }
    else
      { usedThreeWay := summariesExist, response := finalResponse,
        comparisonCalls := 1, escalationCalls := 0, files := fs }

/-- A Python `datetime.datetime` as consumed by the extractor: its own
wall-clock date, its `strftime("%Y-%m-%d %H:%M")` rendering, and
whether it carries timezone information.  `replace(tzinfo=user_tz)`
leaves the wall clock unchanged, so the naive branch uses the value as
is; `astimezone(user_tz)` is the library conversion, supplied as the
`astz` parameter below. -/
structure PyDateTime where
  wallDate : Nat
  wallFmt : String
  hasTz : Bool

/-- The `dtstart.dt` value: either a datetime or a plain date (with its
`strftime("%Y-%m-%d")` rendering). -/
inductive DtStartV where
  | dtime (d : PyDateTime)
  | donly (d : Nat) (fmt : String)

/-- A parsed calendar component: its component name and the fields the
extractor consumes.  `none` models a missing property. -/
structure Component where
  cname : String
  dtstart : DtStartV
  summary : Option String
  description : Option String
  location : Option String

/-- Python truthiness of an optional text property (missing and empty
are falsy). -/
def truthy : Option String → Bool
  | none => false
  | some s => !(s == (""))

/-- Python `str()` of an optional property (`str(None) = "None"`). -/
def strOfOpt : Option String → String
  | none => ("None")
  | some s => s

/-- Lines 79-88: resolve the start value to the timezone-adjusted
formatted time and the derived event date. -/
def resolveDt (astz : PyDateTime → PyDateTime) : DtStartV → Nat × String
  | .dtime d => let d2 := if d.hasTz then astz d else d; (d2.wallDate, d2.wallFmt)
  | .donly d fmt => (d, fmt)

/-- Line 90: the description field, sanitized when present and truthy. -/
def descOf (c : Component) : String :=
  if truthy c.description then sanitize_information (strOfOpt c.description)
  else ("No description")

/-- Lines 93-94: the location field, defaulted then sanitized. -/
def locOf (c : Component) : String :=
  sanitize_information
    (if truthy c.location then strOfOpt c.location else ("No location specified"))

/-- Line 89: the title, `str(component.get('summary'))`, not sanitized. -/
def sumOf (c : Component) : String := strOfOpt c.summary

/-- The auto-generation marker phrase of line 91. -/
def autoGenMarker : String := ("This event was created by")

/-- Lines 96-101: the event detail block. -/
def eventDetails (summary timeStr desc loc : String) : String :=
  ("Event: ") ++ summary ++ ("\nTime: ") ++ timeStr ++ ("\nDescription: ") ++
  desc ++ ("\nLocation: ") ++ loc ++ ("\n")

/-- One iteration of the extraction loop (lines 77-102): `none` when
the component is skipped (not a VEVENT, auto-generated, or out of
range), otherwise the derived date and the detail block. -/
def eventOf (astz : PyDateTime → PyDateTime) (startD endD : Nat)
    (c : Component) : Option (Nat × String) :=
  if c.cname = ("VEVENT") then
    let ds := resolveDt astz c.dtstart
    let desc := descOf c
    if containsSub desc autoGenMarker then none
    else
      let loc := locOf c
      if startD ≤ ds.1 ∧ ds.1 ≤ endD then
        some (ds.1, eventDetails (sumOf c) ds.2 desc loc)
      else none
  else none

/-- `events_by_day.setdefault(date, []).append(details)` on an
insertion-ordered association list. -/
def dictAppend : List (Nat × List String) → Nat → String → List (Nat × List String)
  | [], d, e => [(d, [e])]
  | (k, es) :: rest, d, e =>
    if k = d then (k, es ++ [e]) :: rest
    else (k, es) :: dictAppend rest d e

/-- The extraction loop over all components. -/
def processAux (astz : PyDateTime → PyDateTime) (startD endD : Nat) :
    List Component → List (Nat × List String) → List (Nat × List String)
  | [], acc => acc
  | c :: cs, acc =>
    match eventOf astz startD endD c with
    | none => processAux astz startD endD cs acc
    | some (d, e) => processAux astz startD endD cs (dictAppend acc d e)

/-- Insert one bucket into a key-sorted bucket list. -/
def insertByKey (x : Nat × List String) : List (Nat × List String) → List (Nat × List String)
  | [] => [x]
  | y :: ys => if x.1 < y.1 then x :: y :: ys else y :: insertByKey x ys

/-- `sorted(events_by_day.items(), key=lambda x: x[0])`. -/
def sortByKey (l : List (Nat × List String)) : List (Nat × List String) :=
  l.foldr insertByKey []

/-- `process_ics_file`: extract, filter, group by day, sort by date. -/
def process_ics_file (astz : PyDateTime → PyDateTime) (comps : List Component)
    (startD endD : Nat) : List (Nat × List String) :=
  sortByKey (processAux astz startD endD comps [])

/-- The surviving events of the loop, in discovery order, each paired
with its derived date. -/
def survivors (astz : PyDateTime → PyDateTime) (startD endD : Nat)
    (comps : List Component) : List (Nat × String) :=
  comps.filterMap (eventOf astz startD endD)

/-- Events of `l` whose derived date is `x`, in discovery order. -/
def bucketOf (l : List (Nat × String)) (x : Nat) : List String :=
  (l.filter (fun q => q.1 == x)).map Prod.snd

/-- Association lookup, first occurrence. -/
def lk : List (Nat × List String) → Nat → Option (List String)
  | [], _ => none
  | (k, es) :: rest, d => if k = d then some es else lk rest d

/-- The dictionary-building fold over surviving events: the loop of
`process_ics_file` restricted to its `setdefault`/`append` effect. -/
def groupFold (m : List (Nat × List String)) (l : List (Nat × String)) :
    List (Nat × List String) :=
  l.foldl (fun acc q => dictAppend acc q.1 q.2) m

/-- Digits to a number, rejecting empty and non-digit input. -/
def digitsToNat (l : List Char) : Option Nat :=
  if l ≠ [] ∧ l.all Char.isDigit then
    some (l.foldl (fun n c => n * 10 + (c.toNat - 48)) 0)
  else none

/-- Split a character list on the dash separator. -/
def splitDash : List Char → List (List Char)
  | [] => [[]]
  | c :: rest =>
    if c = '-' then [] :: splitDash rest
    else
      match splitDash rest with
      | [] => [[c]]
      | g :: gs => (c :: g) :: gs

/-- Modelled from the library: `datetime.strptime(s, "%m-%d-%Y").date()`
with the result encoded as `y * 10000 + m * 100 + d`, an encoding on
which the Python date order is the numeric order.  Returns `none` when
strptime would raise `ValueError` (wrong field count, non-digits,
over-long fields, out-of-range month or day). -/
def parseMDY (s : String) : Option Nat :=
  match splitDash s.data with
  | [ms, ds, ys] =>
    match digitsToNat ms, digitsToNat ds, digitsToNat ys with
    | some m, some d, some y =>
      if ms.length ≤ 2 ∧ ds.length ≤ 2 ∧ ys.length = 4 ∧
          1 ≤ m ∧ m ≤ 12 ∧ 1 ≤ d ∧ d ≤ 31 then
        some (y * 10000 + m * 100 + d)
      else none
    | _, _, _ => none
  | _ => none

/-- The per-day double-pass loop of `main` (lines 255-258): for each
day bucket, append one pass to `summary.txt` and one to `summary2.txt`. -/
def summarizeDays (llm : String → LlmOutput) (dfmtMDY : Nat → String) :
    List (Nat × List String) → String × String → String × String
  | [], s => s
  | (d, events) :: rest, s =>
    let txt := joinNL events
    let p1 := analyze_and_summarize llm txt (dfmtMDY d) s.1
    let p2 := analyze_and_summarize llm txt (dfmtMDY d) s.2
    summarizeDays llm dfmtMDY rest (p1.fileAfter, p2.fileAfter)

/-- The per-file loop of `main` (lines 252-258). -/
def processFiles (astz : PyDateTime → PyDateTime) (llm : String → LlmOutput)
    (dfmtMDY : Nat → String) (startD endD : Nat) :
    List (List Component) → String × String → String × String
  | [], s => s
  | comps :: rest, s =>
    processFiles astz llm dfmtMDY startD endD rest
      (summarizeDays llm dfmtMDY (process_ics_file astz comps startD endD) s)

/-- Outcome of one run of `main`. -/
inductive MainOutcome where
  | dateParseError
  | modelMissing
  | noIcs
  | ran (finalState : FinalizeResult) (summary1 summary2 : String)
  deriving DecidableEq

/-- Whether calendar processing happened in this outcome. -/
def MainOutcome.processedAny : MainOutcome → Bool
  | .ran _ _ _ => true
  | _ => false

/-- The final-report artifact content after the run, if written. -/
def MainOutcome.finalReportOut : MainOutcome → Option String
  | .ran r _ _ => r.files.finalReport
  | _ => none

/-- `main()` of the validated variant: parse the two dates (strptime
raises on bad input — `dateParseError` — before anything else runs),
check the model file, discover .ics sources, truncate the three pass
logs, run extraction and both passes per day per file, then run the
Consolidator once.  There is no end-before-start comparison anywhere. -/
def mainModel (startStr endStr : String) (modelExists : Bool)
    (icsFiles : List (List Component)) (astz : PyDateTime → PyDateTime)
    (llm : String → LlmOutput) (dfmtMDY : Nat → String) (nowStr : String) :
    MainOutcome :=
  match parseMDY startStr with
  | none => .dateParseError
  | some startD =>
    match parseMDY endStr with
    | none => .dateParseError
    | some endD =>
      if !modelExists then .modelMissing
      else if icsFiles.isEmpty then .noIcs
      else
        let s12 := processFiles astz llm dfmtMDY startD endD icsFiles ((""), (""))
        .ran (finalize_summary llm nowStr
          { summary1 := s12.1, summary2 := s12.2, summary3 := (""), finalReport := none })
          s12.1 s12.2

/-- A generation service that always answers with the mismatch marker. -/
def llmConstMismatch : String → LlmOutput := fun _ => ⟨[⟨("MISMATCH")⟩]⟩

/-- A generation service that always answers consistently. -/
def llmConstOk : String → LlmOutput := fun _ => ⟨[⟨("OK")⟩]⟩

/-- A generation service whose responses are empty (no choices). -/
def llmConstEmpty : String → LlmOutput := fun _ => ⟨[]⟩

/-- A trivial timezone conversion for concrete runs. -/
def astz0 : PyDateTime → PyDateTime := fun d => d

/-- A trivial date formatter for concrete runs. -/
def dfmt0 : Nat → String := fun _ => ("d")

/-- Concrete state with two pass logs and no third pass. -/
def fsTwo : ConsolidatorFiles :=
  { summary1 := ("a"), summary2 := ("b"), summary3 := (""), finalReport := none }

/-- Concrete state where a non-empty third pass log already exists. -/
def fsThree : ConsolidatorFiles :=
  { summary1 := ("a"), summary2 := ("b"), summary3 := ("c"), finalReport := some ("old") }

/-- Concrete event on day 7, discovered first. -/
def compDay7 : Component :=
  { cname := ("VEVENT"), dtstart := .donly 7 ("t7"), summary := some ("S7"),
    description := some ("y"), location := some ("x") }

/-- Concrete event on day 3, discovered second. -/
def compDay3 : Component :=
  { cname := ("VEVENT"), dtstart := .donly 3 ("t3"), summary := some ("S3"),
    description := some ("y"), location := some ("x") }

/-- Concrete auto-generated event (marker in the description). -/
def compMarker : Component :=
  { cname := ("VEVENT"), dtstart := .donly 4 ("t4"), summary := some ("S4"),
    description := some ("This event was created by z"), location := some ("x") }

/-- Concrete event whose title carries an email address. -/
def compEmailTitle : Component :=
  { cname := ("VEVENT"), dtstart := .donly 5 ("t5"),
    summary := some ("Contact alice@x.com now"),
    description := none, location := none }

theorem subAux_of_not_hasM (re : RE) (repl : List Char) :
    ∀ (fuel : Nat) (prev : Option Char) (s : List Char),
    hasM re prev s = false → subAux re repl fuel prev s = s := by
  intro fuel
  induction fuel with
  | zero => intro prev s _; rfl
  | succ n ih =>
    intro prev s h
    cases s with
    | nil => rfl
    | cons c rest =>
      rw [hasM] at h
      rw [subAux]
      cases hm : matchEnd re prev (c :: rest) with
      | none =>
        rw [hm] at h
        simp only []
        rw [ih (some c) rest h]
      | some k =>
        rw [hm] at h
        cases k with
        | zero =>
          simp only []
          rw [ih (some c) rest h]
        | succ m => simp at h

theorem reSub_of_not_hasM (re : RE) (repl : List Char) (s : List Char)
    (h : hasM re none s = false) : reSub re repl s = s :=
  subAux_of_not_hasM re repl s.length none s h

theorem foldl_reSub_of_not_hasM (repl : List Char) :
    ∀ (ps : List RE) (l : List Char),
    (∀ re ∈ ps, hasM re none l = false) →
    ps.foldl (fun t re => reSub re repl t) l = l := by
  intro ps
  induction ps with
  | nil => intro l _; rfl
  | cons p rest ih =>
    intro l h
    rw [List.foldl_cons, reSub_of_not_hasM p repl l (h p (by simp))]
    exact ih l (fun re hre => h re (by simp [hre]))

theorem sanitize_of_no_match (s : String) (h : sanHasMatch s = false) :
    sanitize_information s = s := by
  unfold sanHasMatch at h
  unfold sanitize_information
  rw [foldl_reSub_of_not_hasM redactedTok.data sanPatterns s.data]
  · intro re hre
    rw [List.any_eq_false] at h
    exact Bool.eq_false_iff.mpr (h re hre)

/-- C2 (amended): the sanitizer raises no exception (it is a total
function) and leaves any text in which none of the eight configured
patterns matches unchanged; consequently it is idempotent on such
inputs.  (As stated, the claim fails: the sequential substitutions can
enable a pattern in a later application, and a word-boundary context
can leave a pattern-shaped substring unredacted — see the
counterexample.) -/
theorem sanitize_noMatch_fixpoint (s : String) (h : sanHasMatch s = false) :
    sanitize_information s = s ∧
    sanitize_information (sanitize_information s) = sanitize_information s := by
  have h1 := sanitize_of_no_match s h
  constructor
  · exact h1
  · rw [h1, h1]

/-- C2 witness: a benign text is untouched and a fixpoint. -/
theorem sanitize_noMatch_fixpoint_witness :
    sanHasMatch ("Hello world") = false ∧
    sanitize_information ("Hello world") = ("Hello world") ∧
    sanitize_information (sanitize_information ("Hello world")) =
      sanitize_information ("Hello world") :=
  ⟨by decide, (sanitize_noMatch_fixpoint ("Hello world") (by decide)).1,
    (sanitize_noMatch_fixpoint ("Hello world") (by decide)).2⟩

/-- C2 counterexample: `sanitize` is not idempotent — redacting
`PIN: 123` creates a word boundary that lets the URL rule fire on the
second application; and a substring matching the configured
`ID: <9-11 digits>` class survives verbatim when preceded by a word
character (`VALID: 123456789`), so not every class-matching substring
is replaced. -/
theorem sanitize_not_idempotent_cex :
    sanitize_information ("PIN: 123http://a") = ("[redacted]http://a") ∧
    sanitize_information (sanitize_information ("PIN: 123http://a")) =
      ("[redacted][redacted]") ∧
    sanitize_information (sanitize_information ("PIN: 123http://a")) ≠
      sanitize_information ("PIN: 123http://a") ∧
    hasM patNumericId none (("ID: 123456789").data) = true ∧
    containsSub ("VALID: 123456789") ("ID: 123456789") = true ∧
    sanitize_information ("VALID: 123456789") = ("VALID: 123456789") := by
  refine ⟨by decide, by decide, ?_, by decide, by decide, by decide⟩
  decide

/-- C7: on a generation-service response with no generated text, the
Pass Summarizer substitutes the fixed sentinel as the pass text and
appends it to the pass log; the function is total, so it never raises. -/
theorem analyze_empty_response_sentinel (llm : String → LlmOutput)
    (text dateStr fileBefore : String)
    (h : (llm (analyzePrompt dateStr text)).choices = []) :
    (analyze_and_summarize llm text dateStr fileBefore).response =
      ("No response generated.") ∧
    (analyze_and_summarize llm text dateStr fileBefore).fileAfter =
      fileBefore ++ ("No response generated.") ++ ("\n\n") := by
  unfold analyze_and_summarize llmResponse
  rw [h]
  exact ⟨rfl, rfl⟩

/-- C7 witness: the always-empty service yields the sentinel pass. -/
theorem analyze_empty_response_sentinel_witness :
    (analyze_and_summarize llmConstEmpty ("events") ("01-01-2024") ("log")).response =
      ("No response generated.") ∧
    (analyze_and_summarize llmConstEmpty ("events") ("01-01-2024") ("log")).fileAfter =
      ("log") ++ ("No response generated.") ++ ("\n\n") :=
  analyze_empty_response_sentinel llmConstEmpty ("events") ("01-01-2024") ("log") rfl

/-- C1: every `finalize_summary` invocation performs exactly one
comparison call and at most one escalation; when the comparison
response contains the mismatch marker and no non-empty third pass log
exists, exactly one pass over the concatenation of the two stripped
summaries is appended to pass-log 3 and the final report is untouched;
when a non-empty third pass log already exists, a mismatch is terminal
and nothing is generated. -/
theorem finalize_bounded_escalation (llm : String → LlmOutput) (nowStr : String)
    (fs : ConsolidatorFiles) :
    (finalize_summary llm nowStr fs).comparisonCalls = 1 ∧
    (finalize_summary llm nowStr fs).escalationCalls ≤ 1 ∧
    (containsSub (finalize_summary llm nowStr fs).response ("MISMATCH") = true →
      pyStrip fs.summary3 = ("") →
      (finalize_summary llm nowStr fs).escalationCalls = 1 ∧
      (finalize_summary llm nowStr fs).files.summary3 =
        fs.summary3 ++
          llmResponse (llm (analyzePrompt nowStr
            (pyStrip fs.summary1 ++ ("\n") ++ pyStrip fs.summary2))) ++ ("\n\n") ∧
      (finalize_summary llm nowStr fs).files.finalReport = fs.finalReport) ∧
    (containsSub (finalize_summary llm nowStr fs).response ("MISMATCH") = true →
      pyStrip fs.summary3 ≠ ("") →
      (finalize_summary llm nowStr fs).escalationCalls = 0 ∧
      (finalize_summary llm nowStr fs).files = fs) := by
  unfold finalize_summary analyze_and_summarize
  cases hs : (pyStrip fs.summary3 == ("")) with
  | true =>
    have hs3 : pyStrip fs.summary3 = ("") := by
      exact (beq_iff_eq).mp hs
    cases hc : containsSub
        (finalizeResponse (llm (twoWayPrompt (pyStrip fs.summary1) (pyStrip fs.summary2))))
        ("MISMATCH") with
    | true => simp [hs, hc, hs3]
    | false => simp [hs, hc, hs3]
  | false =>
    have hs3 : ¬(pyStrip fs.summary3 = ("")) := by
      intro hh
      rw [hh] at hs
      simp at hs
    cases hc : containsSub
        (finalizeResponse (llm (threeWayPrompt (pyStrip fs.summary1) (pyStrip fs.summary2)
          (pyStrip fs.summary3))))
        ("MISMATCH") with
    | true => simp [hs, hc, hs3]
    | false => simp [hs, hc, hs3]

/-- C1 witness: with a constantly mismatching service and no third
pass log, one escalation happens, the concatenated pass is appended,
and the final report stays unwritten. -/
theorem finalize_bounded_escalation_witness :
    containsSub (finalize_summary llmConstMismatch ("12-31-2024") fsTwo).response
      ("MISMATCH") = true ∧
    pyStrip fsTwo.summary3 = ("") ∧
    (finalize_summary llmConstMismatch ("12-31-2024") fsTwo).escalationCalls = 1 ∧
    (finalize_summary llmConstMismatch ("12-31-2024") fsTwo).files.finalReport = none ∧
    (finalize_summary llmConstMismatch ("12-31-2024") fsThree).escalationCalls = 0 := by
  have h := finalize_bounded_escalation llmConstMismatch ("12-31-2024") fsTwo
  have h3 := finalize_bounded_escalation llmConstMismatch ("12-31-2024") fsThree
  refine ⟨by decide, by decide, (h.2.2.1 (by decide) (by decide)).1, ?_, ?_⟩
  · exact ((h.2.2.1 (by decide) (by decide)).2.2).trans rfl
  · exact (h3.2.2.2 (by decide) (by decide)).1

/-- C3: when the comparison response carries no mismatch marker, the
outcome is Consistent — the response is written to the final report
artifact (overwrite) and no third pass is generated, whichever
comparison was used. -/
theorem finalize_consistent_writes_report (llm : String → LlmOutput) (nowStr : String)
    (fs : ConsolidatorFiles)
    (h : containsSub (finalize_summary llm nowStr fs).response ("MISMATCH") = false) :
    (finalize_summary llm nowStr fs).files.finalReport =
      some (finalize_summary llm nowStr fs).response ∧
    (finalize_summary llm nowStr fs).escalationCalls = 0 ∧
    (finalize_summary llm nowStr fs).files.summary3 = fs.summary3 ∧
    (finalize_summary llm nowStr fs).files.summary1 = fs.summary1 ∧
    (finalize_summary llm nowStr fs).files.summary2 = fs.summary2 := by
  revert h
  unfold finalize_summary
  cases hs : (pyStrip fs.summary3 == ("")) with
  | true =>
    cases hc : containsSub
        (finalizeResponse (llm (twoWayPrompt (pyStrip fs.summary1) (pyStrip fs.summary2))))
        ("MISMATCH") with
    | true => simp [hs, hc]
    | false => simp [hs, hc]
  | false =>
    cases hc : containsSub
        (finalizeResponse (llm (threeWayPrompt (pyStrip fs.summary1) (pyStrip fs.summary2)
          (pyStrip fs.summary3))))
        ("MISMATCH") with
    | true => simp [hs, hc]
    | false => simp [hs, hc]

/-- C3 witness: a consistent response ends up in the final report and
pass-log 3 stays empty. -/
theorem finalize_consistent_writes_report_witness :
    containsSub (finalize_summary llmConstOk ("12-31-2024") fsTwo).response
      ("MISMATCH") = false ∧
    (finalize_summary llmConstOk ("12-31-2024") fsTwo).files.finalReport =
      some ("OK") ∧
    (finalize_summary llmConstOk ("12-31-2024") fsTwo).files.summary3 = ("") := by
  have h := finalize_consistent_writes_report llmConstOk ("12-31-2024") fsTwo (by decide)
  refine ⟨by decide, ?_, ?_⟩
  · exact h.1.trans (by decide)
  · exact h.2.2.1.trans rfl

/-- C9: whenever the comparison response contains the mismatch marker
— in the two-way or the three-way comparison — the final report
artifact is left exactly as it was before the run. -/
theorem finalize_mismatch_preserves_report (llm : String → LlmOutput) (nowStr : String)
    (fs : ConsolidatorFiles)
    (h : containsSub (finalize_summary llm nowStr fs).response ("MISMATCH") = true) :
    (finalize_summary llm nowStr fs).files.finalReport = fs.finalReport := by
  revert h
  unfold finalize_summary analyze_and_summarize
  cases hs : (pyStrip fs.summary3 == ("")) with
  | true =>
    cases hc : containsSub
        (finalizeResponse (llm (twoWayPrompt (pyStrip fs.summary1) (pyStrip fs.summary2))))
        ("MISMATCH") with
    | true => simp [hs, hc]
    | false => simp [hs, hc]
  | false =>
    cases hc : containsSub
        (finalizeResponse (llm (threeWayPrompt (pyStrip fs.summary1) (pyStrip fs.summary2)
          (pyStrip fs.summary3))))
        ("MISMATCH") with
    | true => simp [hs, hc]
    | false => simp [hs, hc]

/-- C9 witness: a mismatch after three passes leaves the previous
final report in place. -/
theorem finalize_mismatch_preserves_report_witness :
    containsSub (finalize_summary llmConstMismatch ("12-31-2024") fsThree).response
      ("MISMATCH") = true ∧
    (finalize_summary llmConstMismatch ("12-31-2024") fsThree).files.finalReport =
      some ("old") := by
  have h := finalize_mismatch_preserves_report llmConstMismatch ("12-31-2024") fsThree
    (by decide)
  exact ⟨by decide, h.trans rfl⟩

theorem processAux_eq_groupFold (astz : PyDateTime → PyDateTime) (startD endD : Nat) :
    ∀ (comps : List Component) (acc : List (Nat × List String)),
    processAux astz startD endD comps acc =
      groupFold acc (survivors astz startD endD comps) := by
  intro comps
  induction comps with
  | nil => intro acc; rfl
  | cons c cs ih =>
    intro acc
    cases he : eventOf astz startD endD c with
    | none =>
      have h1 : processAux astz startD endD (c :: cs) acc =
          processAux astz startD endD cs acc := by
        simp only [processAux, he]
      rw [h1, ih acc]
      simp only [survivors]
      rw [List.filterMap_cons_none he]
    | some q =>
      obtain ⟨d, e⟩ := q
      have h1 : processAux astz startD endD (c :: cs) acc =
          processAux astz startD endD cs (dictAppend acc d e) := by
        simp only [processAux, he]
      rw [h1, ih (dictAppend acc d e)]
      simp only [survivors]
      rw [List.filterMap_cons_some he]
      rfl

theorem lk_dictAppend (m : List (Nat × List String)) (d : Nat) (e : String) :
    ∀ x, lk (dictAppend m d e) x =
      if x = d then some ((lk m d).getD [] ++ [e]) else lk m x := by
  induction m with
  | nil =>
    intro x
    by_cases hx : x = d
    · subst hx; simp [dictAppend, lk]
    · simp [dictAppend, lk, hx, Ne.symm hx]
  | cons p rest ih =>
    obtain ⟨k, es⟩ := p
    intro x
    by_cases hk : k = d
    · subst hk
      by_cases hx : x = k
      · subst hx; simp [dictAppend, lk]
      · simp [dictAppend, lk, hx, Ne.symm hx]
    · by_cases hx : x = k
      · subst hx
        have hxd : ¬ x = d := hk
        simp [dictAppend, lk, hk, hxd]
      · simp [dictAppend, lk, hk, hx, Ne.symm hx, ih x]

theorem keys_dictAppend (m : List (Nat × List String)) (d : Nat) (e : String) :
    (dictAppend m d e).map Prod.fst =
      if d ∈ m.map Prod.fst then m.map Prod.fst else m.map Prod.fst ++ [d] := by
  induction m with
  | nil => simp [dictAppend]
  | cons p rest ih =>
    obtain ⟨k, es⟩ := p
    by_cases hk : k = d
    · subst hk; simp [dictAppend]
    · have h1 : dictAppend ((k, es) :: rest) d e = (k, es) :: dictAppend rest d e := by
        simp [dictAppend, hk]
      rw [h1, List.map_cons, List.map_cons, ih]
      by_cases hd : d ∈ rest.map Prod.fst
      · rw [if_pos hd, if_pos (by simp [hd])]
      · rw [if_neg hd, if_neg (by simp [hd, Ne.symm hk])]
        simp

theorem nodup_keys_dictAppend (m : List (Nat × List String)) (d : Nat) (e : String)
    (h : (m.map Prod.fst).Nodup) : ((dictAppend m d e).map Prod.fst).Nodup := by
  rw [keys_dictAppend]
  by_cases hd : d ∈ m.map Prod.fst
  · simp [hd, h]
  · simp [hd, h, List.nodup_append]

theorem mem_keys_groupFold :
    ∀ (l : List (Nat × String)) (m : List (Nat × List String)) (x : Nat),
    (x ∈ (groupFold m l).map Prod.fst ↔ x ∈ m.map Prod.fst ∨ x ∈ l.map Prod.fst) := by
  intro l
  induction l with
  | nil => intro m x; simp [groupFold]
  | cons q t ih =>
    intro m x
    have step : groupFold m (q :: t) = groupFold (dictAppend m q.1 q.2) t := rfl
    rw [step, ih, keys_dictAppend, List.map_cons]
    by_cases hq : q.1 ∈ m.map Prod.fst
    · rw [if_pos hq]
      constructor
      · intro hc
        rcases hc with h1 | h2
        · exact Or.inl h1
        · exact Or.inr (List.mem_cons_of_mem _ h2)
      · intro hc
        rcases hc with h1 | h2
        · exact Or.inl h1
        · rcases List.mem_cons.mp h2 with h3 | h4
          · subst h3; exact Or.inl hq
          · exact Or.inr h4
    · rw [if_neg hq]
      constructor
      · intro hc
        rcases hc with h1 | h2
        · rcases List.mem_append.mp h1 with h3 | h4
          · exact Or.inl h3
          · have : x = q.1 := by simpa using h4
            subst this
            exact Or.inr (List.mem_cons_self _ _)
        · exact Or.inr (List.mem_cons_of_mem _ h2)
      · intro hc
        rcases hc with h1 | h2
        · exact Or.inl (List.mem_append.mpr (Or.inl h1))
        · rcases List.mem_cons.mp h2 with h3 | h4
          · subst h3
            exact Or.inl (List.mem_append.mpr (Or.inr (by simp)))
          · exact Or.inr h4

theorem nodup_keys_groupFold :
    ∀ (l : List (Nat × String)) (m : List (Nat × List String)),
    (m.map Prod.fst).Nodup → ((groupFold m l).map Prod.fst).Nodup := by
  intro l
  induction l with
  | nil => intro m h; exact h
  | cons q t ih =>
    intro m h
    exact ih (dictAppend m q.1 q.2) (nodup_keys_dictAppend m q.1 q.2 h)

theorem lk_of_mem_nodup :
    ∀ (m : List (Nat × List String)), (m.map Prod.fst).Nodup →
    ∀ p ∈ m, lk m p.1 = some p.2 := by
  intro m
  induction m with
  | nil => intro _ p hp; simp at hp
  | cons q rest ih =>
    obtain ⟨k, es⟩ := q
    intro h p hp
    rw [List.map_cons, List.nodup_cons] at h
    rcases List.mem_cons.mp hp with h1 | h2
    · subst h1; simp [lk]
    · have hk : ¬ k = p.1 := by
        intro hkk
        have hmem : p.1 ∈ rest.map Prod.fst := List.mem_map_of_mem Prod.fst h2
        rw [← hkk] at hmem
        exact h.1 hmem
      simp only [lk]
      rw [if_neg hk]
      exact ih h.2 p h2

theorem bucketOf_cons (q : Nat × String) (t : List (Nat × String)) (x : Nat) :
    bucketOf (q :: t) x =
      if q.1 == x then q.2 :: bucketOf t x else bucketOf t x := by
  by_cases h : q.1 = x
  · simp [bucketOf, List.filter_cons, h]
  · simp [bucketOf, List.filter_cons, h]

theorem bucket_groupFold :
    ∀ (l : List (Nat × String)) (m : List (Nat × List String)),
    (m.map Prod.fst).Nodup →
    ∀ p ∈ groupFold m l, p.2 = (lk m p.1).getD [] ++ bucketOf l p.1 := by
  intro l
  induction l with
  | nil =>
    intro m hm p hp
    have h1 : lk m p.1 = some p.2 := lk_of_mem_nodup m hm p hp
    simp [bucketOf, h1]
  | cons q t ih =>
    intro m hm p hp
    have step : groupFold m (q :: t) = groupFold (dictAppend m q.1 q.2) t := rfl
    rw [step] at hp
    have h2 := ih (dictAppend m q.1 q.2) (nodup_keys_dictAppend m q.1 q.2 hm) p hp
    rw [lk_dictAppend] at h2
    by_cases hx : p.1 = q.1
    · rw [if_pos hx] at h2
      rw [hx] at h2
      rw [hx, bucketOf_cons, if_pos (by simp)]
      rw [h2]
      simp
    · rw [if_neg hx] at h2
      rw [bucketOf_cons, if_neg (by simp only [beq_iff_eq]; exact fun h => hx h.symm)]
      exact h2

theorem insertByKey_perm (x : Nat × List String) :
    ∀ l : List (Nat × List String), (insertByKey x l).Perm (x :: l) := by
  intro l
  induction l with
  | nil => simp [insertByKey]
  | cons y ys ih =>
    rw [insertByKey]
    by_cases h : x.1 < y.1
    · rw [if_pos h]
    · rw [if_neg h]
      exact (List.Perm.cons y ih).trans (List.Perm.swap x y ys)

theorem sortByKey_perm (l : List (Nat × List String)) : (sortByKey l).Perm l := by
  induction l with
  | nil => simp [sortByKey]
  | cons y ys ih =>
    have step : sortByKey (y :: ys) = insertByKey y (sortByKey ys) := rfl
    rw [step]
    exact (insertByKey_perm y (sortByKey ys)).trans (List.Perm.cons y ih)

theorem insertByKey_pairwise (x : Nat × List String) :
    ∀ l : List (Nat × List String),
    l.Pairwise (fun a b => a.1 ≤ b.1) →
    (insertByKey x l).Pairwise (fun a b => a.1 ≤ b.1) := by
  intro l
  induction l with
  | nil => intro _; simp [insertByKey]
  | cons y ys ih =>
    intro h
    rw [List.pairwise_cons] at h
    rw [insertByKey]
    by_cases hlt : x.1 < y.1
    · rw [if_pos hlt]
      rw [List.pairwise_cons]
      constructor
      · intro z hz
        rcases List.mem_cons.mp hz with h1 | h2
        · subst h1; exact Nat.le_of_lt hlt
        · exact Nat.le_trans (Nat.le_of_lt hlt) (h.1 z h2)
      · rw [List.pairwise_cons]
        exact h
    · rw [if_neg hlt]
      rw [List.pairwise_cons]
      constructor
      · intro z hz
        have hz2 := (insertByKey_perm x ys).mem_iff.mp hz
        rcases List.mem_cons.mp hz2 with h1 | h2
        · subst h1; exact Nat.le_of_not_lt hlt
        · exact h.1 z h2
      · exact ih h.2

theorem sortByKey_pairwise (l : List (Nat × List String)) :
    (sortByKey l).Pairwise (fun a b => a.1 ≤ b.1) := by
  induction l with
  | nil => simp [sortByKey]
  | cons y ys ih => exact insertByKey_pairwise y (sortByKey ys) ih

theorem process_perm (astz : PyDateTime → PyDateTime) (comps : List Component)
    (startD endD : Nat) :
    (process_ics_file astz comps startD endD).Perm
      (groupFold [] (survivors astz startD endD comps)) := by
  rw [process_ics_file, processAux_eq_groupFold]
  exact sortByKey_perm _

theorem process_keys_nodup (astz : PyDateTime → PyDateTime) (comps : List Component)
    (startD endD : Nat) :
    ((process_ics_file astz comps startD endD).map Prod.fst).Nodup := by
  have h1 := nodup_keys_groupFold (survivors astz startD endD comps) [] (by simp)
  have h2 := (process_perm astz comps startD endD).map Prod.fst
  exact h2.nodup_iff.mpr h1

theorem process_bucket_eq (astz : PyDateTime → PyDateTime) (comps : List Component)
    (startD endD : Nat) :
    ∀ p ∈ process_ics_file astz comps startD endD,
    p.2 = bucketOf (survivors astz startD endD comps) p.1 := by
  intro p hp
  have hp2 := (process_perm astz comps startD endD).mem_iff.mp hp
  have h1 := bucket_groupFold (survivors astz startD endD comps) [] (by simp) p hp2
  simpa [lk] using h1

theorem process_complete (astz : PyDateTime → PyDateTime) (comps : List Component)
    (startD endD : Nat) :
    ∀ q ∈ survivors astz startD endD comps,
    ∃ es, (q.1, es) ∈ process_ics_file astz comps startD endD ∧ q.2 ∈ es := by
  intro q hq
  have hkey : q.1 ∈ (groupFold [] (survivors astz startD endD comps)).map Prod.fst := by
    rw [mem_keys_groupFold]
    exact Or.inr (List.mem_map_of_mem Prod.fst hq)
  rcases List.mem_map.mp hkey with ⟨p, hpmem, hpfst⟩
  have hpo : p ∈ process_ics_file astz comps startD endD :=
    (process_perm astz comps startD endD).mem_iff.mpr hpmem
  refine ⟨p.2, ?_, ?_⟩
  · have hpp : (q.1, p.2) = p := by
      rw [← hpfst]
    rw [hpp]
    exact hpo
  · have hb := process_bucket_eq astz comps startD endD p hpo
    rw [hb, hpfst]
    rw [bucketOf]
    refine List.mem_map.mpr ⟨q, ?_, rfl⟩
    refine List.mem_filter.mpr ⟨hq, by simp⟩

theorem eventOf_range (astz : PyDateTime → PyDateTime) (startD endD : Nat)
    (c : Component) (d : Nat) (det : String)
    (h : eventOf astz startD endD c = some (d, det)) :
    startD ≤ d ∧ d ≤ endD := by
  revert h
  unfold eventOf
  by_cases h1 : c.cname = ("VEVENT")
  · rw [if_pos h1]
    by_cases h2 : containsSub (descOf c) autoGenMarker = true
    · simp [h2]
    · simp only [Bool.not_eq_true] at h2
      simp only [h2]
      by_cases h3 : startD ≤ (resolveDt astz c.dtstart).1 ∧ (resolveDt astz c.dtstart).1 ≤ endD
      · rw [if_pos h3]
        intro h4
        have h5 : (resolveDt astz c.dtstart).1 = d := by
          injection h4 with h6
          exact congrArg Prod.fst h6
        rw [← h5]
        exact h3
      · rw [if_neg h3]
        intro h4
        exact absurd h4 (by simp)
  · rw [if_neg h1]
    intro h4
    exact absurd h4 (by simp)

theorem eventOf_eq_some (astz : PyDateTime → PyDateTime) (startD endD : Nat)
    (c : Component) (h1 : c.cname = ("VEVENT"))
    (h2 : containsSub (descOf c) autoGenMarker = false)
    (h3 : startD ≤ (resolveDt astz c.dtstart).1)
    (h4 : (resolveDt astz c.dtstart).1 ≤ endD) :
    eventOf astz startD endD c =
      some ((resolveDt astz c.dtstart).1,
        eventDetails (sumOf c) (resolveDt astz c.dtstart).2 (descOf c) (locOf c)) := by
  simp [eventOf, h1, h2, h3, h4]

theorem eventOf_none_of_marker (astz : PyDateTime → PyDateTime) (startD endD : Nat)
    (c : Component) (h : containsSub (descOf c) autoGenMarker = true) :
    eventOf astz startD endD c = none := by
  by_cases h1 : c.cname = ("VEVENT")
  · simp [eventOf, h1, h]
  · simp [eventOf, h1]

/-- C4: extraction produces a partition — bucket keys are strictly
increasing (sorted, no date twice), every bucket holds exactly the
surviving events whose derived date equals its key in discovery order,
and every surviving event lands in the bucket of its own date. -/
theorem process_day_partition (astz : PyDateTime → PyDateTime)
    (comps : List Component) (startD endD : Nat) :
    (process_ics_file astz comps startD endD).Pairwise (fun a b => a.1 < b.1) ∧
    (∀ p ∈ process_ics_file astz comps startD endD,
      p.2 = bucketOf (survivors astz startD endD comps) p.1) ∧
    (∀ q ∈ survivors astz startD endD comps,
      ∃ es, (q.1, es) ∈ process_ics_file astz comps startD endD ∧ q.2 ∈ es) := by
  refine ⟨?_, process_bucket_eq astz comps startD endD,
    process_complete astz comps startD endD⟩
  have h1 : (process_ics_file astz comps startD endD).Pairwise
      (fun a b => a.1 ≤ b.1) :=
    sortByKey_pairwise (processAux astz startD endD comps [])
  have h2 := process_keys_nodup astz comps startD endD
  have h3 : (process_ics_file astz comps startD endD).Pairwise
      (fun a b => a.1 ≠ b.1) := List.pairwise_map.mp h2
  exact (h1.and h3).imp (fun h => lt_of_le_of_ne h.1 h.2)

/-- C4 witness: two events discovered out of date order end in two
singleton buckets sorted ascending, each bucket matching its date. -/
theorem process_day_partition_witness :
    (process_ics_file astz0 [compDay7, compDay3] 0 10).Pairwise
      (fun a b => a.1 < b.1) ∧
    (3, [eventDetails ("S3") ("t3") ("y") ("x")]) ∈
      process_ics_file astz0 [compDay7, compDay3] 0 10 ∧
    [eventDetails ("S3") ("t3") ("y") ("x")] =
      bucketOf (survivors astz0 0 10 [compDay7, compDay3]) 3 := by
  have h := process_day_partition astz0 [compDay7, compDay3] 0 10
  refine ⟨h.1, by decide, ?_⟩
  exact h.2.1 (3, [eventDetails ("S3") ("t3") ("y") ("x")]) (by decide)

/-- C5: every bucket date (hence every extracted event's derived date)
lies inside the inclusive requested range, and every parsed VEVENT
whose resolved date is in range and which the content filter does not
exclude appears in the output, in the bucket of its date. -/
theorem process_events_in_range_and_complete (astz : PyDateTime → PyDateTime)
    (comps : List Component) (startD endD : Nat) :
    (∀ p ∈ process_ics_file astz comps startD endD,
      startD ≤ p.1 ∧ p.1 ≤ endD) ∧
    (∀ c ∈ comps, c.cname = ("VEVENT") →
      containsSub (descOf c) autoGenMarker = false →
      startD ≤ (resolveDt astz c.dtstart).1 →
      (resolveDt astz c.dtstart).1 ≤ endD →
      ∃ es, ((resolveDt astz c.dtstart).1, es) ∈
          process_ics_file astz comps startD endD ∧
        eventDetails (sumOf c) (resolveDt astz c.dtstart).2 (descOf c) (locOf c) ∈ es) := by
  constructor
  · intro p hp
    have hkey : p.1 ∈ (process_ics_file astz comps startD endD).map Prod.fst :=
      List.mem_map_of_mem Prod.fst hp
    have hperm := (process_perm astz comps startD endD).map Prod.fst
    have h2 : p.1 ∈ (groupFold [] (survivors astz startD endD comps)).map Prod.fst :=
      hperm.mem_iff.mp hkey
    rw [mem_keys_groupFold] at h2
    rcases h2 with h3 | h3
    · simp at h3
    · rcases List.mem_map.mp h3 with ⟨q, hq, hqf⟩
      rw [survivors] at hq
      rcases List.mem_filterMap.mp hq with ⟨c, _, he⟩
      obtain ⟨d, det⟩ := q
      have hr := eventOf_range astz startD endD c d det he
      rw [← hqf]
      exact hr
  · intro c hc h1 h2 h3 h4
    have he := eventOf_eq_some astz startD endD c h1 h2 h3 h4
    have hq : ((resolveDt astz c.dtstart).1,
        eventDetails (sumOf c) (resolveDt astz c.dtstart).2 (descOf c) (locOf c)) ∈
        survivors astz startD endD comps := by
      rw [survivors]
      exact List.mem_filterMap.mpr ⟨c, hc, he⟩
    have hcomp := process_complete astz comps startD endD _ hq
    simpa using hcomp

/-- C5 witness: a concrete in-range event is bucketed under its date,
which lies within the bounds. -/
theorem process_events_in_range_and_complete_witness :
    ((0:Nat) ≤ 3 ∧ (3:Nat) ≤ 10) ∧
    ∃ es, ((resolveDt astz0 compDay3.dtstart).1, es) ∈
        process_ics_file astz0 [compDay3] 0 10 ∧
      eventDetails (sumOf compDay3) (resolveDt astz0 compDay3.dtstart).2
        (descOf compDay3) (locOf compDay3) ∈ es := by
  have h := process_events_in_range_and_complete astz0 [compDay3] 0 10
  refine ⟨?_, h.2 compDay3 (by simp) (by decide) (by decide) (by decide) (by decide)⟩
  exact h.1 (3, [eventDetails ("S3") ("t3") ("y") ("x")]) (by decide)

/-- C6: an event whose sanitized description contains the
auto-generation marker contributes nothing to the extraction result —
removing it from the component stream leaves the output unchanged, and
no error is raised (the function is total). -/
theorem process_marker_event_dropped (astz : PyDateTime → PyDateTime)
    (startD endD : Nat) (l1 l2 : List Component) (c : Component)
    (h : containsSub (descOf c) autoGenMarker = true) :
    process_ics_file astz (l1 ++ c :: l2) startD endD =
      process_ics_file astz (l1 ++ l2) startD endD := by
  have he := eventOf_none_of_marker astz startD endD c h
  have hs : survivors astz startD endD (l1 ++ c :: l2) =
      survivors astz startD endD (l1 ++ l2) := by
    simp only [survivors, List.filterMap_append]
    rw [List.filterMap_cons_none he]
  rw [process_ics_file, process_ics_file, processAux_eq_groupFold,
    processAux_eq_groupFold, hs]

/-- C6 witness: an auto-generated event inside the range is dropped. -/
theorem process_marker_event_dropped_witness :
    containsSub (descOf compMarker) autoGenMarker = true ∧
    process_ics_file astz0 ([compDay3] ++ compMarker :: [compDay7]) 0 10 =
      process_ics_file astz0 ([compDay3] ++ [compDay7]) 0 10 :=
  ⟨by decide,
    process_marker_event_dropped astz0 0 10 [compDay3] [compDay7] compMarker (by decide)⟩

/-- C10: sanitization touches only description and location — the event
title is embedded verbatim, so an email address in a title reaches the
day bucket, the raw log text, and the summarization prompt unredacted,
although the sanitizer would have redacted it. -/
theorem title_bypasses_sanitizer :
    process_ics_file astz0 [compEmailTitle] 0 10 =
      [(5, [eventDetails ("Contact alice@x.com now") ("t5")
        ("No description") ("No location specified")])] ∧
    containsSub (eventDetails ("Contact alice@x.com now") ("t5")
      ("No description") ("No location specified")) ("alice@x.com") = true ∧
    containsSub (analyzePrompt ("01-05-2024")
      (joinNL [eventDetails ("Contact alice@x.com now") ("t5")
        ("No description") ("No location specified")])) ("alice@x.com") = true ∧
    sanitize_information ("Contact alice@x.com now") = ("Contact [redacted] now") := by
  refine ⟨by decide, by decide, ?_, by decide⟩
  set_option maxRecDepth 4000 in decide

/-- C8 (code behavior at the failing input): an end date strictly
before the start date parses fine, is never rejected, and the run
proceeds through extraction, both passes and the Consolidator, even
writing the final report; only an unparsable date aborts the run
before processing. -/
theorem main_missing_range_validation :
    parseMDY ("01-02-2024") = some 20240102 ∧
    parseMDY ("01-01-2024") = some 20240101 ∧
    (mainModel ("01-02-2024") ("01-01-2024") true [[]] astz0 llmConstOk
      dfmt0 ("n")).processedAny = true ∧
    (mainModel ("01-02-2024") ("01-01-2024") true [[]] astz0 llmConstOk
      dfmt0 ("n")).finalReportOut = some ("OK") ∧
    mainModel ("99-99-9999") ("01-01-2024") true [[]] astz0 llmConstOk
      dfmt0 ("n") = MainOutcome.dateParseError := by
  refine ⟨by decide, by decide, by decide, ?_, by decide⟩
  decide
